import Mathlib

/-!
Verification of the Al-Meezan fund tracker (src/main.go) against its
natural-language specification.

Modelling conventions, fixed throughout the file:

* Go strings are byte sequences; we embed them as `List Nat` (one entry per
  byte).  All inputs the claims quantify over are ASCII, so byte-level and
  rune-level processing coincide; `str` turns a Lean string literal into its
  byte list for readability.
* `float64` values are embedded as exact rationals (`GoFloat` below): no claim
  compares numeric results across different texts, so IEEE-754 rounding is
  irrelevant to every statement proved here, while the *success/failure*
  behaviour of `strconv.ParseFloat` (syntax errors and the ±Inf overflow
  `ErrRange`, which `parseFloat` in main.go turns into `nil`) is modelled
  exactly.
* `time.Time` values carry only the calendar date (`GoDate`): every date the
  program parses is a bare date (midnight), and no claim mentions clock time.
* The HTML document is embedded after DOM construction: a document is the list
  of its `<tr>` elements in document order, each with its `align` attribute
  and the text of its `<td>` descendants in order (`TrRow`).  The external
  parser (`goquery` / `net/html`) is an arbitrary total function
  `List Nat → List TrRow`: `net/html`'s `Parse` accepts every byte sequence,
  its error return being reserved for failures of the underlying `io.Reader`,
  and `strings.Reader` never fails.
* The SQLite store is a list of rows; constraint/I/O failures of the driver
  are an oracle parameter, and begin/prepare/commit failures are `TxEnv` flags.
-/

/-- Byte list of a string literal (ASCII in all uses). -/
def str (s : String) : List Nat := s.data.map Char.toNat

/-- Go `unicode.IsSpace` restricted to single-byte (ASCII) characters:
tab, newline, vertical tab, form feed, carriage return, space.  (The
multi-byte Unicode space runes are outside the byte-level embedding and
outside every claim.) -/
def isSpaceB (c : Nat) : Bool :=
  c == 9 || c == 10 || c == 11 || c == 12 || c == 13 || c == 32

/-- ASCII decimal digit. -/
def isDigitB (c : Nat) : Bool := 48 ≤ c && c ≤ 57

/-- Go's byte lowering `c | 0x20`, restricted to the letters, where it is
`+32`; on the bytes this file ever compares (digits, punctuation, letters) the
two agree, because the banned-from-matching ranges are rejected by the
explicit `a..z` range checks of the callers exactly as in Go. -/
def lowB (c : Nat) : Nat := if 65 ≤ c ∧ c ≤ 90 then c + 32 else c

/-- `strings.TrimLeftFunc unicode.IsSpace`. -/
def goTrimLeftSpace (l : List Nat) : List Nat := l.dropWhile isSpaceB

/-- Trim from the right all bytes satisfying `p`. -/
def goTrimRightBy (p : Nat → Bool) (l : List Nat) : List Nat :=
  (l.reverse.dropWhile p).reverse

/-- Go `strings.TrimSpace` (main.go:124, 141, 185). -/
def goTrimSpace (l : List Nat) : List Nat :=
  goTrimRightBy isSpaceB (goTrimLeftSpace l)

/-- Go `strings.TrimRight s cutset` (main.go:125, 189). -/
def goTrimRight (l cutset : List Nat) : List Nat :=
  goTrimRightBy (fun c => cutset.contains c) l

theorem dropWhile_append_of_all {p : Nat → Bool} {a : List Nat} (b : List Nat)
    (h : ∀ c ∈ a, p c = true) : (a ++ b).dropWhile p = b.dropWhile p := by
  induction a with
  | nil => rfl
  | cons c t ih =>
      simp only [List.cons_append, List.dropWhile_cons, h c (by simp)]
      exact ih fun x hx => h x (by simp [hx])

theorem dropWhile_cons_of_false {p : Nat → Bool} {c : Nat} {l : List Nat}
    (h : p c = false) : (c :: l).dropWhile p = c :: l := by
  simp [List.dropWhile_cons, h]

theorem goTrimRightBy_append_all {p : Nat → Bool} (a : List Nat) {b : List Nat}
    (h : ∀ c ∈ b, p c = true)
    (h2 : ∀ c, a.getLast? = some c → p c = false) :
    goTrimRightBy p (a ++ b) = a := by
  unfold goTrimRightBy
  rw [List.reverse_append, dropWhile_append_of_all _ (by simpa using h)]
  cases ha : a.reverse with
  | nil => simp [List.reverse_eq_nil_iff.mp ha]
  | cons c t =>
      have hc : a.getLast? = some c := by
        rw [← List.head?_reverse, ha]; rfl
      rw [dropWhile_cons_of_false (h2 c hc), ← ha, List.reverse_reverse]

theorem goTrimRightBy_id {p : Nat → Bool} (a : List Nat)
    (h2 : ∀ c, a.getLast? = some c → p c = false) :
    goTrimRightBy p a = a := by
  have := goTrimRightBy_append_all (p := p) a (b := []) (by simp) h2
  simpa using this

/-- Trimming does nothing to a list whose first and last bytes are not spaces. -/
theorem goTrimSpace_id (l : List Nat)
    (h1 : ∀ c, l.head? = some c → isSpaceB c = false)
    (h2 : ∀ c, l.getLast? = some c → isSpaceB c = false) :
    goTrimSpace l = l := by
  unfold goTrimSpace goTrimLeftSpace
  cases l with
  | nil => rfl
  | cons c t =>
      rw [dropWhile_cons_of_false (h1 c rfl)]
      exact goTrimRightBy_id _ h2

/-! ## strconv.ParseFloat

`parseFloat` in main.go calls `strconv.ParseFloat(value, 64)` and discards the
value on any error.  The model below follows Go's `atof64`/`readFloat`:
optional sign; `inf`/`infinity`/`nan` (case-insensitive, fully consumed);
otherwise a decimal mantissa with at most one dot and an optional `e`-exponent,
or a `0x` hex mantissa with a mandatory `p`-exponent; underscores are legal
only where `strconv`'s `underscoreOK` allows them; the whole input must be
consumed.  The numeric value is kept exact as a rational (see the header
note); Go's overflow `ErrRange` — the only range condition that produces a
non-nil error — fires exactly when the magnitude reaches
`2^1024 - 2^970` (the round-to-even boundary above the largest float64), and
is folded into `none` as the caller treats every error alike.  Go caps the
accumulated exponent below 10000 exactly as `readFloat` does. -/

/-- A parsed float64, with the exact rational in place of the rounded value. -/
inductive GoFloat where
  | finite (q : ℚ)
  | posInf
  | negInf
  | nan
deriving DecidableEq

/-- Hex digit letters a-f / A-F. -/
def isHexLetterB (c : Nat) : Bool := (97 ≤ lowB c && lowB c ≤ 102)

/-- Value of a (hex) digit byte. -/
def digitValB (c : Nat) : Nat := if isDigitB c then c - 48 else lowB c - 87

/-- Scan a run of mantissa digits (base 10, or 16 when `hex`), skipping
underscores (their legality is checked separately by `underscoreOKB`).
Returns (accumulated value, digit count, rest). -/
def scanMant (hex : Bool) : List Nat → Nat → Nat → Nat × Nat × List Nat
  | [], acc, n => (acc, n, [])
  | c :: r, acc, n =>
    if c == 95 then scanMant hex r acc n
    else if isDigitB c || (hex && isHexLetterB c) then
      scanMant hex r (acc * (if hex then 16 else 10) + digitValB c) (n + 1)
    else (acc, n, c :: r)

/-- Scan exponent digits with Go's `if e < 10000` saturation, skipping
underscores.  Returns (exponent, digit count, rest). -/
def scanExp : List Nat → Nat → Nat → Nat × Nat × List Nat
  | [], e, n => (e, n, [])
  | c :: r, e, n =>
    if c == 95 then scanExp r e n
    else if isDigitB c then
      scanExp r (if e < 10000 then e * 10 + (c - 48) else e) (n + 1)
    else (e, n, c :: r)

/-- Split a leading `+`/`-`; `true` = negative. -/
def signSplit : List Nat → Bool × List Nat
  | 43 :: r => (false, r)
  | 45 :: r => (true, r)
  | l => (false, l)

/-- Go `strconv`'s `underscoreOK`: every underscore must sit between digits
(or between the `0x` prefix and a digit). -/
def underscoreOKAux (hex : Bool) : List Nat → Nat → Bool
  | [], saw => !(saw == 2)
  | c :: r, saw =>
    if isDigitB c || (hex && isHexLetterB c) then underscoreOKAux hex r 1
    else if c == 95 then
      if saw == 1 then underscoreOKAux hex r 2 else false
    else if saw == 2 then false
    else underscoreOKAux hex r 3

/-- `underscoreOK` on the full original string (saw: 0 = start, 1 = digit or
base prefix, 2 = underscore, 3 = other). -/
def underscoreOKB (s : List Nat) : Bool :=
  let s1 := (signSplit s).2
  match s1 with
  | a :: b :: r => if a == 48 && lowB b == 120
      then underscoreOKAux true r 1
      else underscoreOKAux false s1 0
  | _ => underscoreOKAux false s1 0

/-- Overflow boundary of float64 under round-to-nearest-even. -/
def maxFloatBound : ℚ := 2 ^ (1024 : ℕ) - 2 ^ (970 : ℕ)

/-- Signed finite value with Go's overflow check folded to `none`. -/
def mkFinite (neg : Bool) (q : ℚ) : Option GoFloat :=
  if maxFloatBound ≤ q then none
  else some (.finite (if neg then -q else q))

/-- Parse the (mandatory when `hex`) exponent part and finish:
`mant` is the mantissa value, `fr` the count of post-dot mantissa digits. -/
def finishFloat (s : List Nat) (neg hex : Bool) (mant fr : Nat) :
    List Nat → Option GoFloat
  | [] =>
    if hex then none
    else if !underscoreOKB s then none
    else mkFinite neg ((mant : ℚ) * (10 : ℚ) ^ (-(fr : ℤ)))
  | c :: r =>
    if (!hex && lowB c == 101) || (hex && lowB c == 112) then
      let (eneg, r1) := signSplit r
      let (e, en, r2) := scanExp r1 0 0
      if en == 0 || !r2.isEmpty then none
      else if !underscoreOKB s then none
      else
        let base : ℚ := if hex then 2 else 10
        let scale : ℤ := if hex then 4 * (fr : ℤ) else (fr : ℤ)
        let ex : ℤ := (if eneg then -(e : ℤ) else (e : ℤ)) - scale
        mkFinite neg ((mant : ℚ) * base ^ ex)
    else none

/-- Go `strconv.ParseFloat(s, 64)`, as used at main.go:131 (value exact, every
error — syntax or overflow — folded to `none`). -/
def goParseFloat (s : List Nat) : Option GoFloat :=
  if s.isEmpty then none
  else
    let (neg, s1) := signSplit s
    let low := s1.map lowB
    if low == str "inf" || low == str "infinity" then
      some (if neg then .negInf else .posInf)
    else if low == str "nan" then some .nan
    else
      let hex : Bool := match s1 with
        | a :: b :: _ => a == 48 && lowB b == 120
        | _ => false
      let body := if hex then s1.drop 2 else s1
      let (iv, ic, r1) := scanMant hex body 0 0
      let (fv, fc, r2) := match r1 with
        | 46 :: rf => scanMant hex rf 0 0
        | _ => (0, 0, r1)
      if ic + fc == 0 then none
      else
        let mant := iv * (if hex then 16 else 10) ^ fc + fv
        finishFloat s neg hex mant fc r2

/-! ## time.Parse for the four layouts of parseDate and the handler's ISO layout

`parseDate` (main.go:140) tries `"Jan 2, 2006"`, `"2 Jan, 2006"`,
`"January 2, 2006"`, `"2 January, 2006"` in order; the upload handler parses
the `date` form field with `"2006-01-02"` (main.go:319).  The pieces below
follow Go's `time` package scanner: month names are matched by `lookup`'s
case-insensitive prefix match in table order; `2` is `getnum` without fixed
width (one or two digits); `01`/`02` are fixed two-digit numbers; `2006` takes
four digits; literal layout bytes must match exactly; the whole value must be
consumed; and after scanning, the month must lie in 1..12 and the day in
1..daysIn(month, year). -/

/-- A calendar date (what the program keeps of a `time.Time`). -/
structure GoDate where
  year : Nat
  month : Nat
  day : Nat
deriving DecidableEq

/-- Go `isLeap`. -/
def isLeapYear (y : Nat) : Bool :=
  y % 4 == 0 && (!(y % 100 == 0) || y % 400 == 0)

/-- Go `daysIn(m, year)` for m in 1..12. -/
def daysIn (m y : Nat) : Nat :=
  if m = 2 then (if isLeapYear y then 29 else 28)
  else if m = 4 ∨ m = 6 ∨ m = 9 ∨ m = 11 then 30
  else 31

def shortMonthNames : List (List Nat) :=
  [str "Jan", str "Feb", str "Mar", str "Apr", str "May", str "Jun",
   str "Jul", str "Aug", str "Sep", str "Oct", str "Nov", str "Dec"]

def longMonthNames : List (List Nat) :=
  [str "January", str "February", str "March", str "April", str "May",
   str "June", str "July", str "August", str "September", str "October",
   str "November", str "December"]

/-- One byte of Go `match`: equal, or both lower to the same letter a-z. -/
def matchCharCI (v n : Nat) : Bool :=
  v == n || (lowB v == lowB n && 97 ≤ lowB v && lowB v ≤ 122)

/-- Case-insensitive prefix match of a table name against the value;
`some rest` consumes the name's length (Go `match` inside `lookup`). -/
def matchNameCI : List Nat → List Nat → Option (List Nat)
  | [], v => some v
  | _ :: _, [] => none
  | n :: ns, c :: cs => if matchCharCI c n then matchNameCI ns cs else none

/-- Go `lookup`: first table entry that prefix-matches wins; the returned
index starts at `i0` (callers pass 1 so the result is the month number). -/
def lookupTab : List (List Nat) → Nat → List Nat → Option (Nat × List Nat)
  | [], _, _ => none
  | n :: ns, i, v =>
    match matchNameCI n v with
    | some rest => some (i, rest)
    | none => lookupTab ns (i + 1) v

/-- Go `getnum(s, false)`: one or two digits. -/
def getnum2 : List Nat → Option (Nat × List Nat)
  | [] => none
  | c :: r =>
    if isDigitB c then
      match r with
      | c2 :: r2 =>
        if isDigitB c2 then some ((c - 48) * 10 + (c2 - 48), r2)
        else some (c - 48, c2 :: r2)
      | [] => some (c - 48, [])
    else none

/-- Go `getnum(s, true)` for two-digit layout tokens `01`, `02`. -/
def getnum2Fixed : List Nat → Option (Nat × List Nat)
  | a :: b :: r =>
    if isDigitB a && isDigitB b then some ((a - 48) * 10 + (b - 48), r)
    else none
  | _ => none

/-- Go's `stdLongYear`: four bytes, all digits. -/
def takeYear4 : List Nat → Option (Nat × List Nat)
  | a :: b :: c :: d :: r =>
    if isDigitB a && isDigitB b && isDigitB c && isDigitB d then
      some (((((a - 48) * 10 + (b - 48)) * 10 + (c - 48)) * 10 + (d - 48)), r)
    else none
  | _ => none

/-- Exact match of a literal layout chunk. -/
def expectLit : List Nat → List Nat → Option (List Nat)
  | [], v => some v
  | _ :: _, [] => none
  | l :: ls, c :: cs => if c == l then expectLit ls cs else none

/-- Go `Parse`'s final checks (full consumption, month and day ranges) and
date construction. -/
def finishDate (y m d : Nat) (rest : List Nat) : Option GoDate :=
  if rest = [] ∧ 1 ≤ m ∧ m ≤ 12 ∧ 1 ≤ d ∧ d ≤ daysIn m y then
    some ⟨y, m, d⟩
  else none

/-- `time.Parse` with a layout of the shape `Month D, YYYY` (month table as
given). -/
def parseLayoutMonthFirst (names : List (List Nat)) (v : List Nat) :
    Option GoDate :=
  match lookupTab names 1 v with
  | none => none
  | some (m, v1) =>
    match expectLit [32] v1 with
    | none => none
    | some v2 =>
      match getnum2 v2 with
      | none => none
      | some (d, v3) =>
        match expectLit [44, 32] v3 with
        | none => none
        | some v4 =>
          match takeYear4 v4 with
          | none => none
          | some (y, v5) => finishDate y m d v5

/-- `time.Parse` with a layout of the shape `D Month, YYYY`. -/
def parseLayoutDayFirst (names : List (List Nat)) (v : List Nat) :
    Option GoDate :=
  match getnum2 v with
  | none => none
  | some (d, v1) =>
    match expectLit [32] v1 with
    | none => none
    | some v2 =>
      match lookupTab names 1 v2 with
      | none => none
      | some (m, v3) =>
        match expectLit [44, 32] v3 with
        | none => none
        | some v4 =>
          match takeYear4 v4 with
          | none => none
          | some (y, v5) => finishDate y m d v5

/-- main.go:140 `parseDate`: trim, empty means absent, then the four layouts
in order, first success wins. -/
def parseDate (date : List Nat) : Option GoDate :=
  let t := goTrimSpace date
  if t = [] then none
  else
    match parseLayoutMonthFirst shortMonthNames t with
    | some d => some d
    | none =>
      match parseLayoutDayFirst shortMonthNames t with
      | some d => some d
      | none =>
        match parseLayoutMonthFirst longMonthNames t with
        | some d => some d
        | none => parseLayoutDayFirst longMonthNames t

/-- `time.Parse("2006-01-02", s)` as the upload handler uses it
(main.go:319). -/
def goParseISODate (s : List Nat) : Option GoDate :=
  match takeYear4 s with
  | none => none
  | some (y, v1) =>
    match expectLit [45] v1 with
    | none => none
    | some v2 =>
      match getnum2Fixed v2 with
      | none => none
      | some (m, v3) =>
        match expectLit [45] v3 with
        | none => none
        | some v4 =>
          match getnum2Fixed v4 with
          | none => none
          | some (d, v5) => finishDate y m d v5

/-! Rendering a calendar date in the four layouts (the spec side of claim C4:
Go's `Format` prints the month name from the table, the day unpadded, and the
year zero-padded to four digits — which for years up to 9999 is exactly the
digit expansion below). -/

inductive DateLayout where
  | mdShort
  | dmShort
  | mdLong
  | dmLong
deriving DecidableEq

def monthShortName (m : Nat) : List Nat := shortMonthNames.getD (m - 1) []

def monthLongName (m : Nat) : List Nat := longMonthNames.getD (m - 1) []

/-- The day as Go prints it for layout `2`: no padding (days are ≤ 31). -/
def renderDay (d : Nat) : List Nat :=
  if d < 10 then [48 + d] else [48 + (d / 10) % 10, 48 + d % 10]

/-- The year as Go prints it for layout `2006` when it is at most 9999:
zero-padded four digits. -/
def renderYear4 (y : Nat) : List Nat :=
  [48 + (y / 1000) % 10, 48 + (y / 100) % 10, 48 + (y / 10) % 10, 48 + y % 10]

/-- A calendar date expressed in one of the four supported date-text
layouts. -/
def renderDate : DateLayout → GoDate → List Nat
  | .mdShort, d =>
      monthShortName d.month ++ [32] ++ renderDay d.day ++ [44, 32] ++
        renderYear4 d.year
  | .dmShort, d =>
      renderDay d.day ++ [32] ++ monthShortName d.month ++ [44, 32] ++
        renderYear4 d.year
  | .mdLong, d =>
      monthLongName d.month ++ [32] ++ renderDay d.day ++ [44, 32] ++
        renderYear4 d.year
  | .dmLong, d =>
      renderDay d.day ++ [32] ++ monthLongName d.month ++ [44, 32] ++
        renderYear4 d.year

/-- A calendar date the four layouts can express: real month and day, and a
four-digit year. -/
def ValidDate (d : GoDate) : Prop :=
  1 ≤ d.month ∧ d.month ≤ 12 ∧ 1 ≤ d.day ∧ d.day ≤ daysIn d.month d.year ∧
    d.year ≤ 9999

/-! ## parseFloat, Fund and the table extractor -/

/-- main.go:122 `parseFloat`: trim whitespace, trim trailing `*`/`%`, absent
when empty or when strict parsing fails. -/
def parseFloat (value : List Nat) : Option GoFloat :=
  let v1 := goTrimSpace value
  let v2 := goTrimRight v1 [42, 37]
  if v2 = [] then none
  else goParseFloat v2

/-- main.go:33 `Fund`. -/
structure Fund where
  Name : List Nat
  LaunchDate : Option GoDate
  ValidityDate : Option GoDate
  Repurchase : Option GoFloat
  Offer : Option GoFloat
  NAV : Option GoFloat
  MTD : Option GoFloat
  FYTD : Option GoFloat
  CYTD : Option GoFloat
  FY24 : Option GoFloat
  FY23 : Option GoFloat
  SinceInception : Option GoFloat
  UploadDate : GoDate
deriving DecidableEq

/-- One `<tr>` element of the parsed document: its `align` attribute (if any)
and the text of its `<td>` cells in order. -/
structure TrRow where
  align : Option (List Nat)
  cells : List (List Nat)
deriving DecidableEq

def centerAttr : List Nat := str "center"

/-- The selector `tr[align='center']` over the document's rows. -/
def selectRows (doc : List TrRow) : List TrRow :=
  doc.filter (fun r => r.align == some centerAttr)

/-- main.go:184 `cleanText`: trimmed text of the i-th `<td>` (goquery's
`Eq(i).Text()` of an out-of-range index is the empty string). -/
def cleanText (cells : List (List Nat)) (i : Nat) : List Nat :=
  goTrimSpace (cells.getD i [])

/-- main.go:188: the `Fund` built from one qualifying row. -/
def mkFund (r : TrRow) (uploadDate : GoDate) : Fund where
  Name := goTrimRight (cleanText r.cells 0) [42]
  LaunchDate := parseDate (cleanText r.cells 1)
  ValidityDate := parseDate (cleanText r.cells 2)
  Repurchase := parseFloat (cleanText r.cells 3)
  Offer := parseFloat (cleanText r.cells 4)
  NAV := parseFloat (cleanText r.cells 5)
  MTD := parseFloat (cleanText r.cells 6)
  FYTD := parseFloat (cleanText r.cells 7)
  CYTD := parseFloat (cleanText r.cells 8)
  FY24 := parseFloat (cleanText r.cells 9)
  FY23 := parseFloat (cleanText r.cells 10)
  SinceInception := parseFloat (cleanText r.cells 11)
  UploadDate := uploadDate

/-- The row/column scan of main.go:176-205: over each selected row, append a
fund unless the row has fewer than 12 columns. -/
def extractFunds (doc : List TrRow) (uploadDate : GoDate) : List Fund :=
  (selectRows doc).foldl
    (fun funds row =>
      if row.cells.length < 12 then funds else funds ++ [mkFund row uploadDate])
    []

/-- The selected rows that have at least 12 columns. -/
def qualifyingRows (doc : List TrRow) : List TrRow :=
  (selectRows doc).filter (fun r => !(r.cells.length < 12))

/-- `strings.NewReader(s)` handed to `io`: reading it back yields the string
and never an error. -/
def stringsReaderAll (content : List Nat) : Except (List Nat) (List Nat) :=
  .ok content

/-- `goquery.NewDocumentFromReader` (which runs `net/html`'s `Parse`): the
parser accepts every byte sequence, so the only error channel is the reader's.
`htmlParse` is the total DOM construction. -/
def goqueryNewDocument (htmlParse : List Nat → List TrRow)
    (r : Except (List Nat) (List Nat)) : Except (List Nat) (List TrRow) :=
  match r with
  | .error e => .error e
  | .ok s => .ok (htmlParse s)

/-- main.go:164 `parseHTML`: document construction (with its error branch) and
the row scan. -/
def parseHTMLE (htmlParse : List Nat → List TrRow) (htmlContent : List Nat)
    (uploadDate : GoDate) : Except (List Nat) (List Fund) :=
  match goqueryNewDocument htmlParse (stringsReaderAll htmlContent) with
  | .error e => .error (str "failed to parse HTML document: " ++ e)
  | .ok doc => .ok (extractFunds doc uploadDate)

/-! ## html.UnescapeString

The handler (main.go:354) entity-decodes the uploaded bytes before parsing.
The model covers the core named references and the numeric decimal form with
ASCII value; the remainder of Go's ~2200-entry table behaves the same way
(longest match, replaced in place) and no claim depends on entities beyond
these. -/

def namedEntities : List (List Nat × List Nat) :=
  [(str "lt;", str "<"), (str "gt;", str ">"), (str "amp;", str "&"),
   (str "quot;", [34]), (str "apos;", [39]), (str "nbsp;", [194, 160])]

/-- Leading decimal digits of a `&#NNN;` reference. -/
def scanDecRef : List Nat → Nat → Nat → Nat × Nat × List Nat
  | [], v, n => (v, n, [])
  | c :: r, v, n =>
    if isDigitB c then scanDecRef r (v * 10 + (c - 48)) (n + 1)
    else (v, n, c :: r)

/-- UTF-8 bytes of a scalar value (entity replacement text). -/
def utf8Bytes (v : Nat) : List Nat :=
  if v < 128 then [v]
  else if v < 2048 then [192 + v / 64, 128 + v % 64]
  else if v < 65536 then [224 + v / 4096, 128 + (v / 64) % 64, 128 + v % 64]
  else [240 + v / 262144, 128 + (v / 4096) % 64, 128 + (v / 64) % 64,
        128 + v % 64]

/-- Try the entity table on the text after a `&`; `some (replacement, k)`
consumes `k` bytes. -/
def tryEntity (rest : List Nat) : Option (List Nat × Nat) :=
  match namedEntities.find? (fun e => e.1.isPrefixOf rest) with
  | some e => some (e.2, e.1.length)
  | none =>
    match rest with
    | 35 :: r =>
      match scanDecRef r 0 0 with
      | (v, n, 59 :: _) => if n = 0 then none else some (utf8Bytes v, n + 2)
      | _ => none
    | _ => none

/-- `html.UnescapeString` over bytes (fuel is the length: each step consumes
at least one byte). -/
def unescapeAux : Nat → List Nat → List Nat
  | 0, _ => []
  | _ + 1, [] => []
  | fuel + 1, 38 :: rest =>
    match tryEntity rest with
    | some (rep, k) => rep ++ unescapeAux fuel (rest.drop k)
    | none => 38 :: unescapeAux fuel rest
  | fuel + 1, c :: rest => c :: unescapeAux fuel rest

def unescapeB (l : List Nat) : List Nat := unescapeAux l.length l

/-! ## The persistence layer -/

/-- A value bound to one placeholder of the INSERT (main.go:243-257):
SQL NULL, a text (dates in RFC 3339), or a REAL. -/
inductive SQLValue where
  | null
  | text (s : List Nat)
  | real (v : GoFloat)
deriving DecidableEq

abbrev StoredRow := List SQLValue

def pad2 (n : Nat) : List Nat := [48 + (n / 10) % 10, 48 + n % 10]

/-- `t.Format(time.RFC3339)` for the bare dates the program stores (midnight
UTC). -/
def rfc3339 (d : GoDate) : List Nat :=
  renderYear4 d.year ++ [45] ++ pad2 d.month ++ [45] ++ pad2 d.day ++
    str "T00:00:00Z"

/-- main.go:234 `formatDate`: NULL for a nil date pointer. -/
def optDateVal : Option GoDate → SQLValue
  | none => .null
  | some t => .text (rfc3339 t)

/-- A nil float pointer is NULL. -/
def optFloatVal : Option GoFloat → SQLValue
  | none => .null
  | some v => .real v

/-- The 13 values bound by the INSERT statement for one fund, in column
order. -/
def toRow (f : Fund) : StoredRow :=
  [.text f.Name, optDateVal f.LaunchDate, optDateVal f.ValidityDate,
   optFloatVal f.Repurchase, optFloatVal f.Offer, optFloatVal f.NAV,
   optFloatVal f.MTD, optFloatVal f.FYTD, optFloatVal f.CYTD,
   optFloatVal f.FY24, optFloatVal f.FY23, optFloatVal f.SinceInception,
   .text (rfc3339 f.UploadDate)]

/-- Whether BeginTx / Prepare / Commit succeed (environmental failures of the
driver, independent of the data). -/
structure TxEnv where
  beginOk : Bool
  prepareOk : Bool
  commitOk : Bool

/-- The error main.go:259 wraps around a failed insert.  (39 is the
apostrophe around the name.) -/
def insertErrMsg (name e : List Nat) : List Nat :=
  str "failed to insert fund " ++ [39] ++ name ++ [39] ++ str ": " ++ e

/-- The insert loop of main.go:242-261 inside the open transaction: `oracle`
is the driver's verdict on inserting a row given everything the transaction
can see (committed table plus the rows already pending).  On the first
failure the wrapped error is returned (and the deferred Rollback discards the
pending rows). -/
def insertLoop (oracle : List StoredRow → StoredRow → Option (List Nat))
    (table : List StoredRow) (pending : List StoredRow) :
    List Fund → Except (List Nat) (List StoredRow)
  | [] => .ok pending
  | f :: rest =>
    match oracle (table ++ pending) (toRow f) with
    | some e => .error (insertErrMsg f.Name e)
    | none => insertLoop oracle table (pending ++ [toRow f]) rest

/-- main.go:213 `storeFunds`: the result and the table as visible after the
call (unchanged unless Commit ran). -/
def storeFunds (env : TxEnv)
    (oracle : List StoredRow → StoredRow → Option (List Nat))
    (table : List StoredRow) (funds : List Fund) :
    Except (List Nat) Unit × List StoredRow :=
  if !env.beginOk then (.error (str "failed to begin transaction"), table)
  else if !env.prepareOk then
    (.error (str "failed to prepare statement"), table)
  else
    match insertLoop oracle table [] funds with
    | .error e => (.error e, table)
    | .ok pending =>
      if env.commitOk then (.ok (), table ++ pending)
      else (.error (str "failed to commit transaction"), table)

/-! ## The upload handler -/

def maxFileSize : Nat := 512 * 1024

structure UploadFile where
  filename : List Nat
  content : List Nat
deriving DecidableEq

/-- What the handler reads from an inbound request: the `X-API-Key` header,
the method, whether `ParseMultipartForm` succeeds, the `file` field (absent
models a `FormFile` error), the `date` field (`FormValue` returns the empty
string when absent), and whether reading the file body succeeds. -/
structure UploadRequest where
  apiKeyHeader : List Nat
  method : List Nat
  multipartOk : Bool
  file : Option UploadFile
  dateField : List Nat
  readOk : Bool
deriving DecidableEq

structure UploadResult where
  status : Nat
  table : List StoredRow
  response : Option (List Fund)

/-- main.go:272 `uploadHandler`, in source order: API key (401), method
(405), multipart parse (400), file field (400), date field (400), size cap
(413), body read (500), entity decode, parse, zero rows (400), store (500),
success (200 with the funds echoed).  `now` is `time.Now()`'s date, `table`
the funds table before the request. -/
def uploadHandler (apiKey : List Nat) (htmlParse : List Nat → List TrRow)
    (env : TxEnv) (oracle : List StoredRow → StoredRow → Option (List Nat))
    (now : GoDate) (table : List StoredRow) (req : UploadRequest) :
    UploadResult :=
  if req.apiKeyHeader ≠ apiKey then ⟨401, table, none⟩
  else if req.method ≠ str "POST" then ⟨405, table, none⟩
  else if !req.multipartOk then ⟨400, table, none⟩
  else
    match req.file with
    | none => ⟨400, table, none⟩
    | some file =>
      match (if req.dateField = [] then some now
             else goParseISODate req.dateField) with
      | none => ⟨400, table, none⟩
      | some uploadDate =>
        if maxFileSize < file.content.length then ⟨413, table, none⟩
        else if !req.readOk then ⟨500, table, none⟩
        else
          let htmlContent := unescapeB (file.content.take maxFileSize)
          match parseHTMLE htmlParse htmlContent uploadDate with
          | .error _ => ⟨500, table, none⟩
          | .ok funds =>
            if funds.length = 0 then ⟨400, table, none⟩
            else
              match storeFunds env oracle table funds with
              | (.error _, t) => ⟨500, t, none⟩
              | (.ok _, t) => ⟨200, t, some funds⟩

/-! ## Extraction lemmas and claims C1, C5, C8 -/

theorem extract_foldl (ud : GoDate) (rows : List TrRow) (acc : List Fund) :
    rows.foldl
      (fun funds row =>
        if row.cells.length < 12 then funds else funds ++ [mkFund row ud])
      acc =
    acc ++ (rows.filter (fun r => !(r.cells.length < 12))).map
      (fun r => mkFund r ud) := by
  induction rows generalizing acc with
  | nil => simp
  | cons r t ih =>
      by_cases h : r.cells.length < 12 <;>
        simp [List.foldl_cons, List.filter_cons, h, ih]

theorem extractFunds_eq_map (doc : List TrRow) (ud : GoDate) :
    extractFunds doc ud = (qualifyingRows doc).map (fun r => mkFund r ud) := by
  unfold extractFunds qualifyingRows
  simpa using extract_foldl ud (selectRows doc) []

/-- C1: over any document and upload date, extraction yields exactly one
snapshot per qualifying row (a selected row with at least 12 cells), in
document order — it is the map of the row-to-fund construction over the
qualifying rows — so there are exactly as many snapshots as qualifying rows,
each carrying the given upload date unchanged, whatever the cells hold. -/
theorem claim_C1_extraction_complete (doc : List TrRow) (ud : GoDate) :
    extractFunds doc ud = (qualifyingRows doc).map (fun r => mkFund r ud) ∧
    (extractFunds doc ud).length = (qualifyingRows doc).length ∧
    ∀ f ∈ extractFunds doc ud, f.UploadDate = ud := by
  refine ⟨extractFunds_eq_map doc ud, ?_, ?_⟩
  · rw [extractFunds_eq_map]; simp
  · intro f hf
    rw [extractFunds_eq_map] at hf
    obtain ⟨r, _, rfl⟩ := List.mem_map.mp hf
    rfl

/-- C5: rows with fewer than 12 columns contribute nothing: deleting every
such row from the document leaves the extraction output unchanged (and
extraction is total — short rows never produce an error). -/
theorem claim_C5_short_rows_skipped (doc : List TrRow) (ud : GoDate) :
    extractFunds doc ud =
      extractFunds (doc.filter (fun r => !(r.cells.length < 12))) ud := by
  rw [extractFunds_eq_map, extractFunds_eq_map]
  unfold qualifyingRows selectRows
  rw [List.filter_filter, List.filter_filter, List.filter_filter]
  congr 1
  apply List.filter_congr
  intro r _
  cases h1 : (r.align == some centerAttr) <;>
    cases h2 : !decide (r.cells.length < 12) <;> simp [h1, h2]

/-- C8: for every input string the extraction function returns `.ok` with the
(possibly empty) fund list: the `failed to parse HTML document` branch is
unreachable, because the reader never fails and the HTML parser is total. -/
theorem claim_C8_parse_never_errors (htmlParse : List Nat → List TrRow)
    (content : List Nat) (ud : GoDate) :
    parseHTMLE htmlParse content ud =
      .ok (extractFunds (htmlParse content) ud) := rfl

/-! ## Storage lemmas and claims C2, C10 -/

/-- The needle occurs contiguously inside the haystack. -/
def appearsIn (needle hay : List Nat) : Prop :=
  ∃ a b, hay = a ++ needle ++ b

theorem insertLoop_error (oracle : List StoredRow → StoredRow → Option (List Nat))
    (table : List StoredRow) :
    ∀ (funds : List Fund) (pending : List StoredRow) (msg : List Nat),
      insertLoop oracle table pending funds = .error msg →
      ∃ f ∈ funds, ∃ e, msg = insertErrMsg f.Name e := by
  intro funds
  induction funds with
  | nil => intro pending msg h; simp [insertLoop] at h
  | cons f rest ih =>
      intro pending msg h
      unfold insertLoop at h
      cases horacle : oracle (table ++ pending) (toRow f) with
      | some e =>
          rw [horacle] at h
          injection h with h
          exact ⟨f, by simp, e, h.symm⟩
      | none =>
          rw [horacle] at h
          obtain ⟨g, hg, e, he⟩ := ih _ _ h
          exact ⟨g, by simp [hg], e, he⟩

theorem name_appearsIn_insertErrMsg (name e : List Nat) :
    appearsIn name (insertErrMsg name e) :=
  ⟨str "failed to insert fund " ++ [39], [39] ++ str ": " ++ e, by
    simp [insertErrMsg]⟩

/-- C2: with the transaction machinery itself healthy, every error
`storeFunds` can return comes from the first failing insert: the table is
left exactly as before the call (full rollback, no partial batch), and the
message is the insert wrapper naming the offending snapshot — its name occurs
verbatim inside the returned error. -/
theorem claim_C2_store_rollback (env : TxEnv)
    (oracle : List StoredRow → StoredRow → Option (List Nat))
    (table : List StoredRow) (funds : List Fund)
    (hb : env.beginOk = true) (hp : env.prepareOk = true)
    (hc : env.commitOk = true) (msg : List Nat)
    (herr : (storeFunds env oracle table funds).1 = .error msg) :
    (storeFunds env oracle table funds).2 = table ∧
    ∃ f ∈ funds, ∃ e, msg = insertErrMsg f.Name e ∧ appearsIn f.Name msg := by
  have hres : storeFunds env oracle table funds =
      match insertLoop oracle table [] funds with
      | .error e => (.error e, table)
      | .ok pending => (.ok (), table ++ pending) := by
    unfold storeFunds
    rw [hb, hp, hc]
    rfl
  rw [hres] at herr ⊢
  cases hloop : insertLoop oracle table [] funds with
  | error e =>
      obtain ⟨f, hf, e2, he2⟩ := insertLoop_error oracle table funds [] e hloop
      simp only [hloop] at herr ⊢
      injection herr with h
      refine ⟨by simp, f, hf, e2, ?_, ?_⟩
      · rw [← h, he2]
      · rw [← h, he2]
        exact name_appearsIn_insertErrMsg _ _
  | ok pending =>
      simp only [hloop] at herr
      simp at herr

/-- Concrete instance of C2: a one-fund batch whose insert the driver
rejects leaves the (empty) table unchanged and names the fund. -/
theorem claim_C2_store_rollback_witness :
    (storeFunds ⟨true, true, true⟩ (fun _ _ => some (str "constraint failed"))
        [] [⟨str "Meezan Islamic Fund", none, none, none, none, none, none,
             none, none, none, none, none, ⟨2024, 3, 1⟩⟩]).2 = [] ∧
    ∃ f ∈ [(⟨str "Meezan Islamic Fund", none, none, none, none, none, none,
             none, none, none, none, none, ⟨2024, 3, 1⟩⟩ : Fund)], ∃ e,
      insertErrMsg (str "Meezan Islamic Fund") (str "constraint failed") =
        insertErrMsg f.Name e ∧
      appearsIn f.Name
        (insertErrMsg (str "Meezan Islamic Fund") (str "constraint failed")) :=
  claim_C2_store_rollback ⟨true, true, true⟩
    (fun _ _ => some (str "constraint failed")) []
    [⟨str "Meezan Islamic Fund", none, none, none, none, none, none, none,
      none, none, none, none, ⟨2024, 3, 1⟩⟩] rfl rfl rfl
    (insertErrMsg (str "Meezan Islamic Fund") (str "constraint failed")) rfl

/-- C10: storing an empty batch opens the transaction, runs no insert, and
commits: the call succeeds and the table is unchanged, whatever its prior
contents. -/
theorem claim_C10_store_empty (env : TxEnv)
    (oracle : List StoredRow → StoredRow → Option (List Nat))
    (table : List StoredRow)
    (hb : env.beginOk = true) (hp : env.prepareOk = true)
    (hc : env.commitOk = true) :
    storeFunds env oracle table [] = (.ok (), table) := by
  unfold storeFunds insertLoop
  rw [hb, hp, hc]
  simp

/-- Concrete instance of C10 on a non-empty prior table. -/
theorem claim_C10_store_empty_witness :
    storeFunds ⟨true, true, true⟩ (fun _ _ => some (str "boom"))
      [[SQLValue.null]] [] = (.ok (), [[SQLValue.null]]) :=
  claim_C10_store_empty ⟨true, true, true⟩ (fun _ _ => some (str "boom"))
    [[SQLValue.null]] rfl rfl rfl

/-! ## Handler lemmas and claims C7, C9 -/

theorem parseHTMLE_eq (htmlParse : List Nat → List TrRow) (content : List Nat)
    (ud : GoDate) :
    parseHTMLE htmlParse content ud =
      .ok (extractFunds (htmlParse content) ud) := rfl

/-- Every handler outcome either leaves the table untouched or is a 500/200
(the only outcomes that run the store at all). -/
theorem uploadHandler_table_cases (apiKey : List Nat)
    (htmlParse : List Nat → List TrRow) (env : TxEnv)
    (oracle : List StoredRow → StoredRow → Option (List Nat)) (now : GoDate)
    (table : List StoredRow) (req : UploadRequest) :
    (uploadHandler apiKey htmlParse env oracle now table req).table = table ∨
    (uploadHandler apiKey htmlParse env oracle now table req).status = 500 ∨
    (uploadHandler apiKey htmlParse env oracle now table req).status = 200 := by
  unfold uploadHandler
  dsimp only
  repeat' split
  all_goals simp

/-- C7: every request the handler rejects with a 4xx status (bad key, bad
method, bad multipart body, missing file, bad date, oversized file, zero
extracted rows) leaves the funds table exactly as it was. -/
theorem claim_C7_4xx_frame (apiKey : List Nat)
    (htmlParse : List Nat → List TrRow) (env : TxEnv)
    (oracle : List StoredRow → StoredRow → Option (List Nat)) (now : GoDate)
    (table : List StoredRow) (req : UploadRequest)
    (h1 : 400 ≤ (uploadHandler apiKey htmlParse env oracle now table req).status)
    (h2 : (uploadHandler apiKey htmlParse env oracle now table req).status < 500) :
    (uploadHandler apiKey htmlParse env oracle now table req).table = table := by
  rcases uploadHandler_table_cases apiKey htmlParse env oracle now table req
    with h | h | h
  · exact h
  · omega
  · omega

/-- Concrete instance of C7: a request with the wrong API key is rejected
with 401 and the table persists unchanged. -/
theorem claim_C7_4xx_frame_witness :
    (uploadHandler (str "secret") (fun _ => []) ⟨true, true, true⟩
      (fun _ _ => none) ⟨2024, 3, 1⟩ [[SQLValue.null]]
      ⟨str "wrong", str "POST", true, none, [], true⟩).table =
      [[SQLValue.null]] :=
  claim_C7_4xx_frame (str "secret") (fun _ => []) ⟨true, true, true⟩
    (fun _ _ => none) ⟨2024, 3, 1⟩ [[SQLValue.null]]
    ⟨str "wrong", str "POST", true, none, [], true⟩ (by decide) (by decide)

/-- C9: on every successful upload, the snapshots echoed to the caller are
exactly the extraction of the entity-unescaped (and length-capped) file body
— the handler decodes HTML entities before parsing — and entity-encoded
markup such as `&lt;tr&gt;` becomes real markup under that decoding. -/
theorem claim_C9_unescape_before_parse (apiKey : List Nat)
    (htmlParse : List Nat → List TrRow) (env : TxEnv)
    (oracle : List StoredRow → StoredRow → Option (List Nat)) (now : GoDate)
    (table : List StoredRow) (req : UploadRequest) (file : UploadFile)
    (hfile : req.file = some file)
    (h200 : (uploadHandler apiKey htmlParse env oracle now table req).status = 200) :
    (uploadHandler apiKey htmlParse env oracle now table req).response =
      some (extractFunds (htmlParse (unescapeB (file.content.take maxFileSize)))
        ((if req.dateField = [] then some now
          else goParseISODate req.dateField).getD now)) ∧
    unescapeB (str "&lt;tr&gt;") = str "<tr>" := by
  refine ⟨?_, by decide⟩
  revert h200
  unfold uploadHandler
  rw [hfile]
  dsimp only
  split
  · intro h; simp at h
  split
  · intro h; simp at h
  split
  · intro h; simp at h
  split
  · intro h; simp at h
  rename_i ud hud
  split
  · intro h; simp at h
  split
  · intro h; simp at h
  rw [parseHTMLE_eq, hud]
  dsimp only [Option.getD_some]
  split
  · intro h; simp at h
  split
  · intro h; simp at h
  intro _
  rfl

/-- Concrete instance of C9: a successful upload echoes exactly the
extraction of the unescaped body. -/
theorem claim_C9_unescape_before_parse_witness :
    (uploadHandler (str "k")
        (fun _ => [⟨some centerAttr, List.replicate 12 (str "A*")⟩])
        ⟨true, true, true⟩ (fun _ _ => none) ⟨2024, 1, 1⟩ []
        ⟨str "k", str "POST", true, some ⟨str "f", str "x"⟩, [], true⟩).response =
      some (extractFunds
        ((fun _ => [⟨some centerAttr, List.replicate 12 (str "A*")⟩])
          (unescapeB ((⟨str "f", str "x"⟩ : UploadFile).content.take maxFileSize)))
        ((if (⟨str "k", str "POST", true, some ⟨str "f", str "x"⟩, [],
              true⟩ : UploadRequest).dateField = ([] : List Nat) then
            some ⟨2024, 1, 1⟩
          else goParseISODate (⟨str "k", str "POST", true,
            some ⟨str "f", str "x"⟩, [], true⟩ : UploadRequest).dateField).getD
          ⟨2024, 1, 1⟩)) ∧
    unescapeB (str "&lt;tr&gt;") = str "<tr>" :=
  claim_C9_unescape_before_parse (str "k")
    (fun _ => [⟨some centerAttr, List.replicate 12 (str "A*")⟩])
    ⟨true, true, true⟩ (fun _ _ => none) ⟨2024, 1, 1⟩ []
    ⟨str "k", str "POST", true, some ⟨str "f", str "x"⟩, [], true⟩
    ⟨str "f", str "x"⟩ rfl (by decide)

/-! ## Claim C6: snapshot names -/

/-- A qualifying row whose first cell is empty. -/
def emptyNameRow : TrRow := ⟨some centerAttr, List.replicate 12 []⟩

def emptyNameDoc : List TrRow := [emptyNameRow]

/-- Counterexample to C6 as stated: a document with one qualifying row whose
first cell is empty produces a snapshot whose name is the empty string — the
extractor never enforces non-emptiness. -/
theorem claim_C6_cex :
    ¬ (∀ f ∈ extractFunds emptyNameDoc ⟨2024, 1, 1⟩, f.Name ≠ []) := by
  decide

/-- C6 as amended (the name need not be non-empty): every extracted
snapshot's name is exactly the trimmed text of its row's first cell with
trailing asterisks stripped — empty when the cell held nothing else. -/
theorem claim_C6_name_amended (doc : List TrRow) (ud : GoDate) (f : Fund)
    (hf : f ∈ extractFunds doc ud) :
    ∃ r ∈ qualifyingRows doc,
      f.Name = goTrimRight (cleanText r.cells 0) [42] := by
  rw [extractFunds_eq_map] at hf
  obtain ⟨r, hr, rfl⟩ := List.mem_map.mp hf
  exact ⟨r, hr, rfl⟩

/-- Concrete instance of the amended C6 at the counterexample document. -/
theorem claim_C6_name_amended_witness :
    ∃ r ∈ qualifyingRows emptyNameDoc,
      (mkFund emptyNameRow ⟨2024, 1, 1⟩).Name =
        goTrimRight (cleanText r.cells 0) [42] :=
  claim_C6_name_amended emptyNameDoc ⟨2024, 1, 1⟩
    (mkFund emptyNameRow ⟨2024, 1, 1⟩) (by decide)

/-! ## Claim C3: parseFloat strips whitespace and trailing markers -/

theorem strip_core (ws1 num marks ws2 : List Nat)
    (h1 : ∀ c ∈ ws1, isSpaceB c = true) (h2 : ∀ c ∈ ws2, isSpaceB c = true)
    (h3 : ∀ c ∈ marks, c = 42 ∨ c = 37) (hne : num ≠ [])
    (hhead : ∀ c, num.head? = some c → isSpaceB c = false)
    (hlast : ∀ c, num.getLast? = some c → isSpaceB c = false ∧ c ≠ 42 ∧ c ≠ 37) :
    goTrimRight (goTrimSpace (ws1 ++ num ++ marks ++ ws2)) [42, 37] = num := by
  have hlast_nm : ∀ c, (num ++ marks).getLast? = some c → isSpaceB c = false := by
    intro c hc
    cases hm : marks with
    | nil =>
        subst hm
        rw [List.append_nil] at hc
        exact (hlast c hc).1
    | cons m mt =>
        rw [hm, List.getLast?_append_of_ne_nil _ (by simp)] at hc
        have hmem : c ∈ m :: mt := by
          obtain ⟨h, rfl⟩ := List.mem_getLast?_eq_getLast hc
          exact List.getLast_mem h
        rcases h3 c (by rw [hm]; exact hmem) with rfl | rfl <;> rfl
  have htrim : goTrimSpace (ws1 ++ num ++ marks ++ ws2) = num ++ marks := by
    unfold goTrimSpace goTrimLeftSpace
    rw [List.append_assoc, List.append_assoc,
      dropWhile_append_of_all _ h1, ← List.append_assoc]
    cases hn : num with
    | nil => exact absurd hn hne
    | cons n nt =>
        rw [← hn]
        have : num ++ marks ++ ws2 = (num ++ marks) ++ ws2 := rfl
        cases hnm : num ++ marks with
        | nil => simp [hn] at hnm
        | cons x xt =>
            have hx : isSpaceB x = false := by
              rw [hn] at hnm
              injection hnm with h h2t
              rw [← h]
              exact hhead n (by rw [hn]; rfl)
            rw [List.cons_append, dropWhile_cons_of_false hx,
              ← List.cons_append, ← hnm]
            exact goTrimRightBy_append_all _ h2 (by rw [hnm]; rw [← hnm]; exact hlast_nm)
  rw [htrim]
  unfold goTrimRight
  apply goTrimRightBy_append_all
  · intro c hc
    rcases h3 c hc with rfl | rfl <;> rfl
  · intro c hc
    obtain ⟨-, hc42, hc37⟩ := hlast c hc
    simp [hc42, hc37]

/-- C3: (a) on text of the shape whitespace, then a core token, then trailing
`*`/`%` markers, then whitespace, `parseFloat` returns exactly what strict
parsing returns on the bare core; (b) whenever the text strips to nothing or
the stripped remainder fails strict parsing, `parseFloat` is absent. -/
theorem claim_C3_parseFloat_strip :
    (∀ ws1 num marks ws2 : List Nat,
        (∀ c ∈ ws1, isSpaceB c = true) →
        (∀ c ∈ ws2, isSpaceB c = true) →
        (∀ c ∈ marks, c = 42 ∨ c = 37) →
        num ≠ [] →
        (∀ c, num.head? = some c → isSpaceB c = false) →
        (∀ c, num.getLast? = some c →
          isSpaceB c = false ∧ c ≠ 42 ∧ c ≠ 37) →
        parseFloat (ws1 ++ num ++ marks ++ ws2) = goParseFloat num) ∧
    (∀ s : List Nat,
        goTrimRight (goTrimSpace s) [42, 37] = [] ∨
          goParseFloat (goTrimRight (goTrimSpace s) [42, 37]) = none →
        parseFloat s = none) := by
  constructor
  · intro ws1 num marks ws2 h1 h2 h3 hne hhead hlast
    have hstrip := strip_core ws1 num marks ws2 h1 h2 h3 hne hhead hlast
    unfold parseFloat
    dsimp only
    rw [hstrip, if_neg hne]
  · intro s hs
    unfold parseFloat
    dsimp only
    rcases hs with hs | hs
    · rw [hs]
      simp
    · by_cases he : goTrimRight (goTrimSpace s) [42, 37] = []
      · rw [if_pos he]
      · rw [if_neg he, hs]

/-! ## Claim C4: the date layouts round-trip -/

theorem lowB_of_digit {c : Nat} (h1 : 48 ≤ c) (h2 : c ≤ 57) : lowB c = c := by
  unfold lowB
  rw [if_neg]
  omega

theorem lowB_of_upper {n : Nat} (h1 : 65 ≤ n) (h2 : n ≤ 90) : lowB n = n + 32 := by
  unfold lowB
  rw [if_pos ⟨h1, h2⟩]

theorem matchCharCI_digit_upper (c n : Nat) (hc : isDigitB c = true)
    (h1 : 65 ≤ n) (h2 : n ≤ 90) : matchCharCI c n = false := by
  have hc' : 48 ≤ c ∧ c ≤ 57 := by simpa [isDigitB] using hc
  have e1 : (c == n) = false := by simp; omega
  have e2 : (decide (97 ≤ lowB c)) = false := by
    rw [lowB_of_digit hc'.1 hc'.2]; simp; omega
  simp [matchCharCI, e1, e2]

theorem lookupTab_head_fail (c : Nat) (r : List Nat) :
    ∀ (tab : List (List Nat)) (i : Nat),
      (∀ name ∈ tab, ∃ n0 t, name = n0 :: t ∧ matchCharCI c n0 = false) →
      lookupTab tab i (c :: r) = none := by
  intro tab
  induction tab with
  | nil => intro i _; rfl
  | cons name rest ih =>
      intro i h
      obtain ⟨n0, t, rfl, hm⟩ := h name (by simp)
      unfold lookupTab
      rw [show matchNameCI (n0 :: t) (c :: r) = none by
        unfold matchNameCI; rw [hm]; rfl]
      exact ih (i + 1) fun nm hnm => h nm (by simp [hnm])

theorem lookupShort_digit (c : Nat) (hc : isDigitB c = true) (r : List Nat) :
    lookupTab shortMonthNames 1 (c :: r) = none := by
  apply lookupTab_head_fail
  intro name hname
  fin_cases hname <;>
    exact ⟨_, _, rfl, matchCharCI_digit_upper c _ hc (by decide) (by decide)⟩

theorem lookupLong_digit (c : Nat) (hc : isDigitB c = true) (r : List Nat) :
    lookupTab longMonthNames 1 (c :: r) = none := by
  apply lookupTab_head_fail
  intro name hname
  fin_cases hname <;>
    exact ⟨_, _, rfl, matchCharCI_digit_upper c _ hc (by decide) (by decide)⟩

theorem renderDay_head_digit (d : Nat) :
    ∃ c t, renderDay d = c :: t ∧ isDigitB c = true := by
  unfold renderDay
  by_cases h : d < 10
  · rw [if_pos h]
    exact ⟨48 + d, [], rfl, by simp [isDigitB]; omega⟩
  · rw [if_neg h]
    refine ⟨48 + d / 10 % 10, _, rfl, by simp [isDigitB]; omega⟩

theorem getnum2_renderDay (d : Nat) (hd1 : 1 ≤ d) (hd2 : d ≤ 99) (r : List Nat)
    (hr : ∀ c, r.head? = some c → isDigitB c = false) :
    getnum2 (renderDay d ++ r) = some (d, r) := by
  unfold renderDay
  by_cases h : d < 10
  · rw [if_pos h]
    have hdig : isDigitB (48 + d) = true := by simp [isDigitB]; omega
    cases r with
    | nil => simp [getnum2, hdig]
    | cons c2 r2 => simp [getnum2, hdig, hr c2 rfl]
  · rw [if_neg h]
    have hdig1 : isDigitB (48 + d / 10 % 10) = true := by simp [isDigitB]; omega
    have hdig2 : isDigitB (48 + d % 10) = true := by simp [isDigitB]; omega
    simp [getnum2, hdig1, hdig2]
    omega

theorem takeYear4_renderYear4 (y : Nat) (hy : y ≤ 9999) (r : List Nat) :
    takeYear4 (renderYear4 y ++ r) = some (y, r) := by
  have h1 : isDigitB (48 + y / 1000 % 10) = true := by simp [isDigitB]; omega
  have h2 : isDigitB (48 + y / 100 % 10) = true := by simp [isDigitB]; omega
  have h3 : isDigitB (48 + y / 10 % 10) = true := by simp [isDigitB]; omega
  have h4 : isDigitB (48 + y % 10) = true := by simp [isDigitB]; omega
  unfold renderYear4 takeYear4
  simp only [List.cons_append, List.nil_append, h1, h2, h3, h4, Bool.and_self,
    if_true]
  simp
  omega

theorem daysIn_le_31 (m y : Nat) : daysIn m y ≤ 31 := by
  unfold daysIn
  split_ifs <;> omega

theorem renderYear4_getLast (y : Nat) :
    ∀ c, (renderYear4 y).getLast? = some c → isSpaceB c = false := by
  intro c hc
  have : renderYear4 y =
      [48 + y / 1000 % 10, 48 + y / 100 % 10, 48 + y / 10 % 10] ++
        [48 + y % 10] := rfl
  rw [this, List.getLast?_append_of_ne_nil _ (by simp)] at hc
  simp at hc
  have : y % 10 < 10 := Nat.mod_lt _ (by omega)
  subst hc
  simp [isSpaceB]
  omega

theorem renderYear4_ne_nil (y : Nat) : renderYear4 y ≠ [] := by
  unfold renderYear4
  simp

theorem monthShortName_head (m : Nat) (hm1 : 1 ≤ m) (hm2 : m ≤ 12) :
    ∃ c t, monthShortName m = c :: t ∧ 65 ≤ c ∧ c ≤ 90 := by
  interval_cases m <;> exact ⟨_, _, rfl, by decide, by decide⟩

theorem monthLongName_head (m : Nat) (hm1 : 1 ≤ m) (hm2 : m ≤ 12) :
    ∃ c t, monthLongName m = c :: t ∧ 65 ≤ c ∧ c ≤ 90 := by
  interval_cases m <;> exact ⟨_, _, rfl, by decide, by decide⟩

theorem trim_renderDate (L : DateLayout) (y m d : Nat)
    (hm1 : 1 ≤ m) (hm2 : m ≤ 12) :
    goTrimSpace (renderDate L ⟨y, m, d⟩) = renderDate L ⟨y, m, d⟩ := by
  have hlast : ∀ (a : List Nat) c,
      (a ++ renderYear4 y).getLast? = some c → isSpaceB c = false :=
    fun a c hc => renderYear4_getLast y c
      (by rwa [List.getLast?_append_of_ne_nil _ (renderYear4_ne_nil y)] at hc)
  have hdayhead : ∀ (rest : List Nat) c,
      (renderDay d ++ rest).head? = some c → isSpaceB c = false := by
    intro rest c hc
    obtain ⟨c0, t0, he, hdig⟩ := renderDay_head_digit d
    rw [he, List.cons_append] at hc
    injection hc with hc
    subst hc
    have : 48 ≤ c0 ∧ c0 ≤ 57 := by simpa [isDigitB] using hdig
    simp [isSpaceB]
    omega
  have hmshead : ∀ (rest : List Nat) c,
      (monthShortName m ++ rest).head? = some c → isSpaceB c = false := by
    intro rest c hc
    obtain ⟨c0, t0, he, h65, h90⟩ := monthShortName_head m hm1 hm2
    rw [he, List.cons_append] at hc
    injection hc with hc
    subst hc
    simp [isSpaceB]
    omega
  have hmlhead : ∀ (rest : List Nat) c,
      (monthLongName m ++ rest).head? = some c → isSpaceB c = false := by
    intro rest c hc
    obtain ⟨c0, t0, he, h65, h90⟩ := monthLongName_head m hm1 hm2
    rw [he, List.cons_append] at hc
    injection hc with hc
    subst hc
    simp [isSpaceB]
    omega
  cases L <;> (
    simp only [renderDate]
    apply goTrimSpace_id
    · intro c hc
      simp only [List.append_assoc] at hc
      first
        | exact hmshead _ c hc
        | exact hmlhead _ c hc
        | exact hdayhead _ c hc
    · intro c hc
      exact hlast _ c hc)

/-! Byte-level evaluations of the month-name tables (used by simp, where
the `str` literals must appear as explicit byte lists). -/

theorem shortMonthNames_bytes :
    shortMonthNames = [[74, 97, 110],
      [70, 101, 98],
      [77, 97, 114],
      [65, 112, 114],
      [77, 97, 121],
      [74, 117, 110],
      [74, 117, 108],
      [65, 117, 103],
      [83, 101, 112],
      [79, 99, 116],
      [78, 111, 118],
      [68, 101, 99]] := rfl

theorem longMonthNames_bytes :
    longMonthNames = [[74, 97, 110, 117, 97, 114, 121],
      [70, 101, 98, 114, 117, 97, 114, 121],
      [77, 97, 114, 99, 104],
      [65, 112, 114, 105, 108],
      [77, 97, 121],
      [74, 117, 110, 101],
      [74, 117, 108, 121],
      [65, 117, 103, 117, 115, 116],
      [83, 101, 112, 116, 101, 109, 98, 101, 114],
      [79, 99, 116, 111, 98, 101, 114],
      [78, 111, 118, 101, 109, 98, 101, 114],
      [68, 101, 99, 101, 109, 98, 101, 114]] := rfl

theorem monthShortName1 : monthShortName 1 = [74, 97, 110] := rfl

theorem monthShortName2 : monthShortName 2 = [70, 101, 98] := rfl

theorem monthShortName3 : monthShortName 3 = [77, 97, 114] := rfl

theorem monthShortName4 : monthShortName 4 = [65, 112, 114] := rfl

theorem monthShortName5 : monthShortName 5 = [77, 97, 121] := rfl

theorem monthShortName6 : monthShortName 6 = [74, 117, 110] := rfl

theorem monthShortName7 : monthShortName 7 = [74, 117, 108] := rfl

theorem monthShortName8 : monthShortName 8 = [65, 117, 103] := rfl

theorem monthShortName9 : monthShortName 9 = [83, 101, 112] := rfl

theorem monthShortName10 : monthShortName 10 = [79, 99, 116] := rfl

theorem monthShortName11 : monthShortName 11 = [78, 111, 118] := rfl

theorem monthShortName12 : monthShortName 12 = [68, 101, 99] := rfl

theorem monthLongName1 : monthLongName 1 = [74, 97, 110, 117, 97, 114, 121] := rfl

theorem monthLongName2 : monthLongName 2 = [70, 101, 98, 114, 117, 97, 114, 121] := rfl

theorem monthLongName3 : monthLongName 3 = [77, 97, 114, 99, 104] := rfl

theorem monthLongName4 : monthLongName 4 = [65, 112, 114, 105, 108] := rfl

theorem monthLongName5 : monthLongName 5 = [77, 97, 121] := rfl

theorem monthLongName6 : monthLongName 6 = [74, 117, 110, 101] := rfl

theorem monthLongName7 : monthLongName 7 = [74, 117, 108, 121] := rfl

theorem monthLongName8 : monthLongName 8 = [65, 117, 103, 117, 115, 116] := rfl

theorem monthLongName9 : monthLongName 9 = [83, 101, 112, 116, 101, 109, 98, 101, 114] := rfl

theorem monthLongName10 : monthLongName 10 = [79, 99, 116, 111, 98, 101, 114] := rfl

theorem monthLongName11 : monthLongName 11 = [78, 111, 118, 101, 109, 98, 101, 114] := rfl

theorem monthLongName12 : monthLongName 12 = [68, 101, 99, 101, 109, 98, 101, 114] := rfl

theorem renderDay_ne_nil (d : Nat) : renderDay d ≠ [] := by
  unfold renderDay
  split <;> simp

theorem getnum2_not_digit {c : Nat} (h : isDigitB c = false) (r : List Nat) :
    getnum2 (c :: r) = none := by
  simp [getnum2, h]

/-! Evaluation of the month lookup on values beginning with each month name
(the remainder of the value stays symbolic). -/

theorem lookupShortJan (r : List Nat) :
    lookupTab shortMonthNames 1 (74 :: 97 :: 110 :: r) = some (1, r) := by
  simp [shortMonthNames_bytes, lookupTab, matchNameCI, matchCharCI, lowB]

theorem lookupShortFeb (r : List Nat) :
    lookupTab shortMonthNames 1 (70 :: 101 :: 98 :: r) = some (2, r) := by
  simp [shortMonthNames_bytes, lookupTab, matchNameCI, matchCharCI, lowB]

theorem lookupShortMar (r : List Nat) :
    lookupTab shortMonthNames 1 (77 :: 97 :: 114 :: r) = some (3, r) := by
  simp [shortMonthNames_bytes, lookupTab, matchNameCI, matchCharCI, lowB]

theorem lookupShortApr (r : List Nat) :
    lookupTab shortMonthNames 1 (65 :: 112 :: 114 :: r) = some (4, r) := by
  simp [shortMonthNames_bytes, lookupTab, matchNameCI, matchCharCI, lowB]

theorem lookupShortMay (r : List Nat) :
    lookupTab shortMonthNames 1 (77 :: 97 :: 121 :: r) = some (5, r) := by
  simp [shortMonthNames_bytes, lookupTab, matchNameCI, matchCharCI, lowB]

theorem lookupShortJun (r : List Nat) :
    lookupTab shortMonthNames 1 (74 :: 117 :: 110 :: r) = some (6, r) := by
  simp [shortMonthNames_bytes, lookupTab, matchNameCI, matchCharCI, lowB]

theorem lookupShortJul (r : List Nat) :
    lookupTab shortMonthNames 1 (74 :: 117 :: 108 :: r) = some (7, r) := by
  simp [shortMonthNames_bytes, lookupTab, matchNameCI, matchCharCI, lowB]

theorem lookupShortAug (r : List Nat) :
    lookupTab shortMonthNames 1 (65 :: 117 :: 103 :: r) = some (8, r) := by
  simp [shortMonthNames_bytes, lookupTab, matchNameCI, matchCharCI, lowB]

theorem lookupShortSep (r : List Nat) :
    lookupTab shortMonthNames 1 (83 :: 101 :: 112 :: r) = some (9, r) := by
  simp [shortMonthNames_bytes, lookupTab, matchNameCI, matchCharCI, lowB]

theorem lookupShortOct (r : List Nat) :
    lookupTab shortMonthNames 1 (79 :: 99 :: 116 :: r) = some (10, r) := by
  simp [shortMonthNames_bytes, lookupTab, matchNameCI, matchCharCI, lowB]

theorem lookupShortNov (r : List Nat) :
    lookupTab shortMonthNames 1 (78 :: 111 :: 118 :: r) = some (11, r) := by
  simp [shortMonthNames_bytes, lookupTab, matchNameCI, matchCharCI, lowB]

theorem lookupShortDec (r : List Nat) :
    lookupTab shortMonthNames 1 (68 :: 101 :: 99 :: r) = some (12, r) := by
  simp [shortMonthNames_bytes, lookupTab, matchNameCI, matchCharCI, lowB]

theorem lookupLongJanuary (r : List Nat) :
    lookupTab longMonthNames 1 (74 :: 97 :: 110 :: 117 :: 97 :: 114 :: 121 :: r) = some (1, r) := by
  simp [longMonthNames_bytes, lookupTab, matchNameCI, matchCharCI, lowB]

theorem lookupLongFebruary (r : List Nat) :
    lookupTab longMonthNames 1 (70 :: 101 :: 98 :: 114 :: 117 :: 97 :: 114 :: 121 :: r) = some (2, r) := by
  simp [longMonthNames_bytes, lookupTab, matchNameCI, matchCharCI, lowB]

theorem lookupLongMarch (r : List Nat) :
    lookupTab longMonthNames 1 (77 :: 97 :: 114 :: 99 :: 104 :: r) = some (3, r) := by
  simp [longMonthNames_bytes, lookupTab, matchNameCI, matchCharCI, lowB]

theorem lookupLongApril (r : List Nat) :
    lookupTab longMonthNames 1 (65 :: 112 :: 114 :: 105 :: 108 :: r) = some (4, r) := by
  simp [longMonthNames_bytes, lookupTab, matchNameCI, matchCharCI, lowB]

theorem lookupLongMay (r : List Nat) :
    lookupTab longMonthNames 1 (77 :: 97 :: 121 :: r) = some (5, r) := by
  simp [longMonthNames_bytes, lookupTab, matchNameCI, matchCharCI, lowB]

theorem lookupLongJune (r : List Nat) :
    lookupTab longMonthNames 1 (74 :: 117 :: 110 :: 101 :: r) = some (6, r) := by
  simp [longMonthNames_bytes, lookupTab, matchNameCI, matchCharCI, lowB]

theorem lookupLongJuly (r : List Nat) :
    lookupTab longMonthNames 1 (74 :: 117 :: 108 :: 121 :: r) = some (7, r) := by
  simp [longMonthNames_bytes, lookupTab, matchNameCI, matchCharCI, lowB]

theorem lookupLongAugust (r : List Nat) :
    lookupTab longMonthNames 1 (65 :: 117 :: 103 :: 117 :: 115 :: 116 :: r) = some (8, r) := by
  simp [longMonthNames_bytes, lookupTab, matchNameCI, matchCharCI, lowB]

theorem lookupLongSeptember (r : List Nat) :
    lookupTab longMonthNames 1 (83 :: 101 :: 112 :: 116 :: 101 :: 109 :: 98 :: 101 :: 114 :: r) = some (9, r) := by
  simp [longMonthNames_bytes, lookupTab, matchNameCI, matchCharCI, lowB]

theorem lookupLongOctober (r : List Nat) :
    lookupTab longMonthNames 1 (79 :: 99 :: 116 :: 111 :: 98 :: 101 :: 114 :: r) = some (10, r) := by
  simp [longMonthNames_bytes, lookupTab, matchNameCI, matchCharCI, lowB]

theorem lookupLongNovember (r : List Nat) :
    lookupTab longMonthNames 1 (78 :: 111 :: 118 :: 101 :: 109 :: 98 :: 101 :: 114 :: r) = some (11, r) := by
  simp [longMonthNames_bytes, lookupTab, matchNameCI, matchCharCI, lowB]

theorem lookupLongDecember (r : List Nat) :
    lookupTab longMonthNames 1 (68 :: 101 :: 99 :: 101 :: 109 :: 98 :: 101 :: 114 :: r) = some (12, r) := by
  simp [longMonthNames_bytes, lookupTab, matchNameCI, matchCharCI, lowB]

set_option maxHeartbeats 1600000 in
theorem parseDate_renderDate (y m d : Nat) (hm1 : 1 ≤ m) (hm2 : m ≤ 12)
    (hd1 : 1 ≤ d) (hd2 : d ≤ daysIn m y) (hy : y ≤ 9999) (L : DateLayout) :
    parseDate (renderDate L ⟨y, m, d⟩) = some ⟨y, m, d⟩ := by
  have hd99 : d ≤ 99 := le_trans hd2 (le_trans (daysIn_le_31 m y) (by omega))
  have h44 : ∀ rest : List Nat,
      getnum2 (renderDay d ++ (44 :: rest)) = some (d, 44 :: rest) := by
    intro rest
    apply getnum2_renderDay d hd1 hd99
    intro c hc
    injection hc with hc
    subst hc
    decide
  have h32 : ∀ rest : List Nat,
      getnum2 (renderDay d ++ (32 :: rest)) = some (d, 32 :: rest) := by
    intro rest
    apply getnum2_renderDay d hd1 hd99
    intro c hc
    injection hc with hc
    subst hc
    decide
  have hy4 : ∀ r, takeYear4 (renderYear4 y ++ r) = some (y, r) :=
    takeYear4_renderYear4 y hy
  have hy4n : takeYear4 (renderYear4 y) = some (y, []) := by
    have := hy4 []
    rwa [List.append_nil] at this
  have hnoS : ∀ rest : List Nat,
      lookupTab shortMonthNames 1 (renderDay d ++ rest) = none := by
    intro rest
    obtain ⟨c0, t0, he, hdig⟩ := renderDay_head_digit d
    rw [he, List.cons_append]
    exact lookupShort_digit c0 hdig _
  have hnoL : ∀ rest : List Nat,
      lookupTab longMonthNames 1 (renderDay d ++ rest) = none := by
    intro rest
    obtain ⟨c0, t0, he, hdig⟩ := renderDay_head_digit d
    rw [he, List.cons_append]
    exact lookupLong_digit c0 hdig _
  unfold parseDate
  dsimp only
  rw [trim_renderDate L y m d hm1 hm2]
  cases L <;> interval_cases m <;>
    simp [renderDate, monthShortName1, monthShortName2, monthShortName3,
      monthShortName4, monthShortName5, monthShortName6, monthShortName7,
      monthShortName8, monthShortName9, monthShortName10, monthShortName11,
      monthShortName12, monthLongName1, monthLongName2, monthLongName3,
      monthLongName4, monthLongName5, monthLongName6, monthLongName7,
      monthLongName8, monthLongName9, monthLongName10, monthLongName11,
      monthLongName12, parseLayoutMonthFirst, parseLayoutDayFirst,
      lookupShortJan, lookupShortFeb, lookupShortMar, lookupShortApr,
      lookupShortMay, lookupShortJun, lookupShortJul, lookupShortAug,
      lookupShortSep, lookupShortOct, lookupShortNov, lookupShortDec,
      lookupLongJanuary, lookupLongFebruary, lookupLongMarch, lookupLongApril,
      lookupLongMay, lookupLongJune, lookupLongJuly, lookupLongAugust,
      lookupLongSeptember, lookupLongOctober, lookupLongNovember,
      lookupLongDecember, expectLit, finishDate, getnum2_not_digit, isDigitB,
      h44, h32, hy4, hy4n, hnoS, hnoL, hd1, hd2, renderDay_ne_nil]

/-- C4: every calendar date the four layouts can express (real month/day and
a four-digit year) round-trips: rendering it in any of the four supported
layouts and normalizing yields the same date — `parseDate` tries the four
layouts in their fixed order, first success winning, by definition — and
empty input normalizes to absent. -/
theorem claim_C4_date_roundtrip :
    (∀ dt : GoDate, ValidDate dt → ∀ L : DateLayout,
        parseDate (renderDate L dt) = some dt) ∧
    parseDate [] = none := by
  constructor
  · rintro ⟨y, m, d⟩ ⟨hm1, hm2, hd1, hd2, hy⟩ L
    exact parseDate_renderDate y m d hm1 hm2 hd1 hd2 hy L
  · rfl
